import Mathlib

/-!
# Verification of the metadata-card synthesizer of spacy-huggingface-hub

Shallow embedding of `src/spacy_huggingface_hub/push_cli.py`, restricted to the
pure metadata-card synthesis logic (`_insert_value`, `_insert_values_as_list`,
`_create_metric`, `_create_p_r_f_list`, `_create_model_index`, and the
card-building body of `_create_model_card`).

Modelling conventions:
* A Python dict of metric values (`data["performance"]`) is modelled as an
  association list `Perf` with first-match lookup; `k in data` is
  `Perf.containsKey` and `data[k]` is `Perf.getItem`, which raises `KeyError k`
  modelled as `Except.error k`.
* Metric values (JSON numbers) are modelled as `Rat`; the code only passes
  them through, never computes with them.
* The metadata dict being built is an association list `Card` of
  `String × CardValue`; Python's `metadata[name] = value` is `dictInsert`
  (update in place if the key exists, append otherwise).
* The manifest `meta.json` is a `Manifest` record of optional fields;
  `data["lang"]` on a missing key is `Except.error "lang"`, and
  `data.get("license", "")` is `Option.getD`.
-/

namespace SpacyHFHub

/-- A performance mapping (Python dict of string keys to numeric values),
as an association list; lookups take the first matching key. -/
abbrev Perf := List (String × Rat)

/-- First-match lookup, the semantics of `data[k]` / `k in data` on a dict. -/
def Perf.find : Perf → String → Option Rat
  | [], _ => none
  | (k2, v) :: rest, k => if k2 = k then some v else Perf.find rest k

/-- Python `k in data`. -/
def Perf.containsKey (d : Perf) (k : String) : Bool :=
  (d.find k).isSome

/-- Python `data[k]`: the value, or a `KeyError` carrying the key. -/
def Perf.getItem (d : Perf) (k : String) : Except String Rat :=
  match d.find k with
  | some v => .ok v
  | none => .error k

/-- The value under `k`, defaulting to `0`; used only to state
characterizations in contexts where the key is known to be present. -/
def Perf.findD (d : Perf) (k : String) : Rat :=
  (d.find k).getD 0

/-- One metric dict `{"name": ..., "type": ..., "value": ...}` (line 71). -/
structure Metric where
  name : String
  type : String
  value : Rat
deriving DecidableEq, Repr

/-- The inner `"tasks"` dict of a results entry (lines 89-95 etc.). -/
structure TaskInfo where
  name : String
  type : String
  metrics : List Metric
deriving DecidableEq, Repr

/-- One element of the `results` list: a dict `{"tasks": {...}}`. -/
structure ResultEntry where
  tasks : TaskInfo
deriving DecidableEq, Repr

/-- The model index dict `{"name": ..., "results": [...]}` (lines 83, 147). -/
structure ModelIndex where
  name : String
  results : List ResultEntry
deriving DecidableEq, Repr

/-- `_create_metric` (lines 70-71). -/
def _create_metric (name : String) (t : String) (value : Rat) : Metric :=
  { name := name, type := t, value := value }

/-- `_create_p_r_f_list` (lines 74-79). -/
def _create_p_r_f_list (precision recallVal f_score : Rat) : List Metric :=
  [_create_metric "Precision" "precision" precision,
   _create_metric "Recall" "recall" recallVal,
   _create_metric "F Score" "f_score" f_score]

/-- Lines 86-97 of `_create_model_index`: the NER group. Inside the
`if "ents_p" in data` guard, `data["ents_r"]` and `data["ents_f"]` may
still raise `KeyError`. -/
def appendNER (data : Perf) (results : List ResultEntry) :
    Except String (List ResultEntry) :=
  if data.containsKey "ents_p" then
    (data.getItem "ents_p").bind fun p =>
      (data.getItem "ents_r").bind fun r =>
        (data.getItem "ents_f").bind fun f =>
          .ok (results ++
            [⟨⟨"NER", "token-classification", _create_p_r_f_list p r f⟩⟩])
  else .ok results

/-- Lines 98-109: the POS group. -/
def appendPOS (data : Perf) (results : List ResultEntry) :
    Except String (List ResultEntry) :=
  if data.containsKey "tag_acc" then
    (data.getItem "tag_acc").bind fun a =>
      .ok (results ++
        [⟨⟨"POS", "token-classification",
           [_create_metric "Accuracy" "accuracy" a]⟩⟩])
  else .ok results

/-- Lines 110-121: the SENTER group. -/
def appendSENTER (data : Perf) (results : List ResultEntry) :
    Except String (List ResultEntry) :=
  if data.containsKey "sents_p" then
    (data.getItem "sents_p").bind fun p =>
      (data.getItem "sents_r").bind fun r =>
        (data.getItem "sents_f").bind fun f =>
          .ok (results ++
            [⟨⟨"SENTER", "token-classification", _create_p_r_f_list p r f⟩⟩])
  else .ok results

/-- Lines 122-133: the UNLABELED_DEPENDENCIES group. -/
def appendUAS (data : Perf) (results : List ResultEntry) :
    Except String (List ResultEntry) :=
  if data.containsKey "dep_uas" then
    (data.getItem "dep_uas").bind fun a =>
      .ok (results ++
        [⟨⟨"UNLABELED_DEPENDENCIES", "token-classification",
           [_create_metric "Accuracy" "accuracy" a]⟩⟩])
  else .ok results

/-- Lines 134-145: the LABELED_DEPENDENCIES group. The guard checks
`"dep_las" in data` but the metric value read is `data["dep_uas"]`,
exactly as in the source (line 141). -/
def appendLAS (data : Perf) (results : List ResultEntry) :
    Except String (List ResultEntry) :=
  if data.containsKey "dep_las" then
    (data.getItem "dep_uas").bind fun a =>
      .ok (results ++
        [⟨⟨"LABELED_DEPENDENCIES", "token-classification",
           [_create_metric "Accuracy" "accuracy" a]⟩⟩])
  else .ok results

/-- The accumulation of the `results` list in `_create_model_index`
(lines 85-145), the five groups in source order. -/
def buildResults (data : Perf) : Except String (List ResultEntry) :=
  ((((appendNER data []).bind (appendPOS data)).bind
      (appendSENTER data)).bind (appendUAS data)).bind (appendLAS data)

/-- `_create_model_index` (lines 82-148). -/
def _create_model_index (repo_name : String) (data : Perf) :
    Except String ModelIndex :=
  match buildResults data with
  | .error e => .error e
  | .ok results => .ok { name := repo_name, results := results }

/-- The NER entry exactly as lines 87-97 build it, stated with the total
lookup `findD`; whenever `_create_model_index` succeeds with `"ents_p"`
present, the three lookups are `some` and `findD` is the looked-up value. -/
def nerEntry (d : Perf) : ResultEntry :=
  ⟨⟨"NER", "token-classification",
    _create_p_r_f_list (d.findD "ents_p") (d.findD "ents_r") (d.findD "ents_f")⟩⟩

/-- The POS entry of lines 99-109. -/
def posEntry (d : Perf) : ResultEntry :=
  ⟨⟨"POS", "token-classification",
    [_create_metric "Accuracy" "accuracy" (d.findD "tag_acc")]⟩⟩

/-- The SENTER entry of lines 111-121. -/
def senterEntry (d : Perf) : ResultEntry :=
  ⟨⟨"SENTER", "token-classification",
    _create_p_r_f_list (d.findD "sents_p") (d.findD "sents_r") (d.findD "sents_f")⟩⟩

/-- The UNLABELED_DEPENDENCIES entry of lines 123-133. -/
def uasEntry (d : Perf) : ResultEntry :=
  ⟨⟨"UNLABELED_DEPENDENCIES", "token-classification",
    [_create_metric "Accuracy" "accuracy" (d.findD "dep_uas")]⟩⟩

/-- The LABELED_DEPENDENCIES entry of lines 135-145; its metric reads
`"dep_uas"`, as the source does on line 141. -/
def lasEntry (d : Perf) : ResultEntry :=
  ⟨⟨"LABELED_DEPENDENCIES", "token-classification",
    [_create_metric "Accuracy" "accuracy" (d.findD "dep_uas")]⟩⟩

/-- A value stored in the metadata card dict: a string, a list of
strings, or the model index. -/
inductive CardValue where
  | str : String → CardValue
  | strList : List String → CardValue
  | index : ModelIndex → CardValue
deriving DecidableEq, Repr

/-- The metadata dict under construction, in insertion order
(`yaml.dump(..., sort_keys=False)` preserves it). -/
abbrev Card := List (String × CardValue)

/-- First-match lookup on the card. -/
def lookupCard : Card → String → Option CardValue
  | [], _ => none
  | (k2, v) :: rest, k => if k2 = k then some v else lookupCard rest k

/-- Python `metadata[name] = value` on a dict: replace in place when the
key exists, append otherwise. -/
def dictInsert (metadata : Card) (name : String) (value : CardValue) : Card :=
  if metadata.any (fun p => p.1 == name) then
    metadata.map (fun p => if p.1 == name then (name, value) else p)
  else metadata ++ [(name, value)]

/-- `_insert_value` (lines 52-56); `value` is `none` for Python `None`. -/
def _insert_value (metadata : Card) (name : String) (value : Option String) :
    Card :=
  match value with
  | none => metadata
  | some v => if v = "" then metadata else dictInsert metadata name (.str v)

/-- The `values` argument of `_insert_values_as_list`: Python passes either
a single string or a list of strings. -/
inductive StrOrList where
  | s : String → StrOrList
  | l : List String → StrOrList
deriving DecidableEq, Repr

/-- `_insert_values_as_list` (lines 59-67); a bare string becomes a
singleton list, `None` and empty lists are dropped. -/
def _insert_values_as_list (metadata : Card) (name : String)
    (values : Option StrOrList) : Card :=
  match values with
  | none => metadata
  | some (.s v) => dictInsert metadata name (.strList [v])
  | some (.l vs) =>
      if vs.length = 0 then metadata else dictInsert metadata name (.strList vs)

/-- `token_classification_components` (line 48). -/
def token_classification_components : List String :=
  ["ner", "tagger", "morphologizer"]

/-- `text_classification_components` (line 49). -/
def text_classification_components : List String :=
  ["textcat", "textcat_multilabel"]

/-- Whether a component name is in `token_classification_components`
(the `component in token_classification_components` test of line 159). -/
def isTok (c : String) : Bool :=
  token_classification_components.contains c

/-- Whether a component name is in `text_classification_components`
(the `component in text_classification_components` test of line 164). -/
def isText (c : String) : Bool :=
  text_classification_components.contains c

/-- The body of the `for component in data["components"]` loop
(lines 157-167): one component updates the running tags list. -/
def addTagStep (tags : List String) (component : String) : List String :=
  let tags :=
    if isTok component && !(tags.contains "token-classification") then
      tags ++ ["token-classification"]
    else tags
  if isText component && !(tags.contains "text-classification") then
    tags ++ ["text-classification"]
  else tags

/-- The whole `for` loop of lines 157-167, from an initial tags list. -/
def addTags : List String → List String → List String
  | tags, [] => tags
  | tags, c :: cs => addTags (addTagStep tags c) cs

/-- Lines 156-167: `tags = ["spacy"]` followed by the component scan. -/
def computeTags (components : List String) : List String :=
  addTags ["spacy"] components

/-- Reference shape of the tags the component scan appends after
`"spacy"`: the first qualifying component of either kind contributes its
tag, and the other tag follows exactly when a component of the other
kind occurs anywhere later in the list. Proved equal to the scan's
output in `computeTags_eq`. -/
def tagSuffix : List String → List String
  | [] => []
  | c :: cs =>
    if isTok c then
      "token-classification" ::
        (if cs.any isText then ["text-classification"] else [])
    else if isText c then
      "text-classification" ::
        (if cs.any isTok then ["token-classification"] else [])
    else tagSuffix cs

/-- The manifest read from `meta.json`, restricted to the keys
`_create_model_card` uses. A `none` field models an absent key. -/
structure Manifest where
  lang : Option String
  license : Option String
  components : Option (List String)
  performance : Option Perf
deriving Repr

/-- Python's `s.replace(" ", "-")` for the single-character pattern:
each space character becomes a hyphen (line 155). -/
def replaceSpaces (s : String) : String :=
  String.mk (s.data.map (fun c => if c = ' ' then '-' else c))

/-- The metadata-dict construction of `_create_model_card`
(lines 154-172), up to but not including the YAML serialization.
Missing required manifest keys (`lang`, `components`, `performance`)
surface as `Except.error` carrying the key name, in the order the
source reads them; `license` is read with `data.get("license", "")`. -/
def cardMetadata (repo_name : String) (data : Manifest) : Except String Card :=
  match data.lang with
  | none => .error "lang"
  | some lang0 =>
    let lang := if lang0 ≠ "xx" then lang0 else "multilingual"
    let lic := replaceSpaces (data.license.getD "")
    match data.components with
    | none => .error "components"
    | some components =>
      let tags := computeTags components
      let metadata := _insert_values_as_list [] "tags" (some (.l tags))
      let metadata := _insert_values_as_list metadata "language" (some (.s lang))
      let metadata := _insert_value metadata "license" (some lic)
      match data.performance with
      | none => .error "performance"
      | some perf =>
        match _create_model_index repo_name perf with
        | .error e => .error e
        | .ok mi => .ok (dictInsert metadata "model-index" (.index mi))

/-- Lines 173-185 of `_create_model_card`: the front-matter block is the
serialized metadata between `---` marker lines, and the description
document is rewritten to the block followed by the prior content
(the empty string when the file does not exist, modelled by `none`).
The YAML serialization itself is an external library call
(`yaml.dump`), taken here as the opaque string `metadata`. -/
def rewriteDescription (metadata : String) (readme : Option String) : String :=
  let metadata_section := "---\n" ++ metadata ++ "---\n"
  let readme := match readme with
    | none => ""
    | some r => r
  metadata_section ++ readme

/-! ## Helper lemmas: the component scan -/

theorem contains_eq_mem (l : List String) (a : String) :
    l.contains a = decide (a ∈ l) :=
  List.elem_eq_mem a l

theorem isTok_cases {c : String} (h : isTok c = true) :
    c = "ner" ∨ c = "tagger" ∨ c = "morphologizer" := by
  simpa [isTok, token_classification_components, contains_eq_mem] using h

theorem isText_cases {c : String} (h : isText c = true) :
    c = "textcat" ∨ c = "textcat_multilabel" := by
  simpa [isText, text_classification_components, contains_eq_mem] using h

theorem isText_false_of_isTok {c : String} (h : isTok c = true) :
    isText c = false := by
  rcases isTok_cases h with rfl | rfl | rfl <;> rfl

theorem isTok_false_of_isText {c : String} (h : isText c = true) :
    isTok c = false := by
  rcases isText_cases h with rfl | rfl <;> rfl

theorem mem_of_contains {l : List String} {a : String}
    (h : l.contains a = true) : a ∈ l := by
  simpa [contains_eq_mem] using h

theorem not_mem_of_contains {l : List String} {a : String}
    (h : l.contains a = false) : a ∉ l := by
  simpa [contains_eq_mem] using h

theorem addTagStep_of_both {tags : List String}
    (htok : tags.contains "token-classification" = true)
    (htext : tags.contains "text-classification" = true) (c : String) :
    addTagStep tags c = tags := by
  have m1 := mem_of_contains htok
  have m2 := mem_of_contains htext
  simp [addTagStep, m1, m2]

theorem addTagStep_of_tok {tags : List String}
    (htok : tags.contains "token-classification" = true)
    (htext : tags.contains "text-classification" = false) (c : String) :
    addTagStep tags c =
      if isText c then tags ++ ["text-classification"] else tags := by
  have m1 := mem_of_contains htok
  have m2 := not_mem_of_contains htext
  cases h2 : isText c
  · cases h1 : isTok c <;> simp [addTagStep, h1, h2, m1]
  · have h1 := isTok_false_of_isText h2
    simp [addTagStep, h1, h2, m2]

theorem addTagStep_of_text {tags : List String}
    (htok : tags.contains "token-classification" = false)
    (htext : tags.contains "text-classification" = true) (c : String) :
    addTagStep tags c =
      if isTok c then tags ++ ["token-classification"] else tags := by
  have m1 := not_mem_of_contains htok
  have m2 := mem_of_contains htext
  cases h1 : isTok c
  · cases h2 : isText c <;> simp [addTagStep, h1, h2, m2]
  · have h2 := isText_false_of_isTok h1
    simp [addTagStep, h1, h2, m1, m2]

theorem addTagStep_of_none {tags : List String}
    (htok : tags.contains "token-classification" = false)
    (htext : tags.contains "text-classification" = false) (c : String) :
    addTagStep tags c =
      if isTok c then tags ++ ["token-classification"]
      else if isText c then tags ++ ["text-classification"]
      else tags := by
  have m1 := not_mem_of_contains htok
  have m2 := not_mem_of_contains htext
  cases h1 : isTok c
  · cases h2 : isText c <;> simp [addTagStep, h1, h2, m2]
  · have h2 := isText_false_of_isTok h1
    simp [addTagStep, h1, h2, m1, m2]

theorem addTags_of_both {tags : List String}
    (htok : tags.contains "token-classification" = true)
    (htext : tags.contains "text-classification" = true)
    (cs : List String) :
    addTags tags cs = tags := by
  induction cs with
  | nil => rfl
  | cons c cs ih => rw [addTags, addTagStep_of_both htok htext]; exact ih

theorem addTags_of_tok {tags : List String}
    (htok : tags.contains "token-classification" = true)
    (htext : tags.contains "text-classification" = false)
    (cs : List String) :
    addTags tags cs =
      if cs.any isText then tags ++ ["text-classification"] else tags := by
  induction cs with
  | nil => simp [addTags]
  | cons c cs ih =>
    rw [addTags, addTagStep_of_tok htok htext]
    cases h2 : isText c
    · simpa [List.any_cons, h2] using ih
    · have htok2 : (tags ++ ["text-classification"]).contains
          "token-classification" = true := by
        have := mem_of_contains htok
        simp [contains_eq_mem, this]
      have htext2 : (tags ++ ["text-classification"]).contains
          "text-classification" = true := by
        simp [contains_eq_mem]
      simp [h2, List.any_cons, addTags_of_both htok2 htext2]

theorem addTags_of_text {tags : List String}
    (htok : tags.contains "token-classification" = false)
    (htext : tags.contains "text-classification" = true)
    (cs : List String) :
    addTags tags cs =
      if cs.any isTok then tags ++ ["token-classification"] else tags := by
  induction cs with
  | nil => simp [addTags]
  | cons c cs ih =>
    rw [addTags, addTagStep_of_text htok htext]
    cases h1 : isTok c
    · simpa [List.any_cons, h1] using ih
    · have htok2 : (tags ++ ["token-classification"]).contains
          "token-classification" = true := by
        simp [contains_eq_mem]
      have htext2 : (tags ++ ["token-classification"]).contains
          "text-classification" = true := by
        have := mem_of_contains htext
        simp [contains_eq_mem, this]
      simp [h1, List.any_cons, addTags_of_both htok2 htext2]

theorem addTags_of_none {tags : List String}
    (htok : tags.contains "token-classification" = false)
    (htext : tags.contains "text-classification" = false)
    (cs : List String) :
    addTags tags cs = tags ++ tagSuffix cs := by
  induction cs with
  | nil => simp [addTags, tagSuffix]
  | cons c cs ih =>
    rw [addTags, addTagStep_of_none htok htext]
    cases h1 : isTok c
    · cases h2 : isText c
      · simpa [h1, h2, tagSuffix] using ih
      · have htok2 : (tags ++ ["text-classification"]).contains
            "token-classification" = true → False := by
          intro hc
          rcases List.mem_append.mp (mem_of_contains hc) with hmem | hmem
          · exact not_mem_of_contains htok hmem
          · simp at hmem
        have htok2' : (tags ++ ["text-classification"]).contains
            "token-classification" = false := by
          cases hx : (tags ++ ["text-classification"]).contains
              "token-classification"
          · rfl
          · exact absurd hx (fun hc => htok2 hc)
        have htext2 : (tags ++ ["text-classification"]).contains
            "text-classification" = true := by
          simp [contains_eq_mem]
        rw [if_neg (by simp [h1]), if_pos (by simp [h2])]
        rw [addTags_of_text htok2' htext2]
        cases h3 : cs.any isTok <;>
          simp [tagSuffix, h1, h2, h3]
    · have htok2 : (tags ++ ["token-classification"]).contains
          "token-classification" = true := by
        simp [contains_eq_mem]
      have htext2 : (tags ++ ["token-classification"]).contains
          "text-classification" = false := by
        cases hx : (tags ++ ["token-classification"]).contains
            "text-classification"
        · rfl
        · exfalso
          rcases List.mem_append.mp (mem_of_contains hx) with hmem | hmem
          · exact not_mem_of_contains htext hmem
          · simp at hmem
      rw [if_pos (by simp [h1])]
      rw [addTags_of_tok htok2 htext2]
      cases h3 : cs.any isText <;>
        simp [tagSuffix, h1, h3]

/-- The component scan, characterized: `"spacy"` followed by the
reference suffix. -/
theorem computeTags_eq (cs : List String) :
    computeTags cs = "spacy" :: tagSuffix cs := by
  have h := @addTags_of_none ["spacy"] (by rfl) (by rfl) cs
  simpa [computeTags] using h

theorem tagSuffix_count_tok (cs : List String) :
    (tagSuffix cs).count "token-classification" =
      if cs.any isTok then 1 else 0 := by
  induction cs with
  | nil => simp [tagSuffix]
  | cons c cs ih =>
    cases h1 : isTok c
    · cases h2 : isText c
      · simpa [tagSuffix, h1, h2, List.any_cons] using ih
      · cases h3 : cs.any isTok <;>
          simp [tagSuffix, h1, h2, h3, List.any_cons, List.count_cons]
    · cases h3 : cs.any isText <;>
        simp [tagSuffix, h1, h3, List.any_cons, List.count_cons]

theorem tagSuffix_count_text (cs : List String) :
    (tagSuffix cs).count "text-classification" =
      if cs.any isText then 1 else 0 := by
  induction cs with
  | nil => simp [tagSuffix]
  | cons c cs ih =>
    cases h1 : isTok c
    · cases h2 : isText c
      · simpa [tagSuffix, h1, h2, List.any_cons] using ih
      · cases h3 : cs.any isTok <;>
          simp [tagSuffix, h1, h2, h3, List.any_cons, List.count_cons]
    · have h2 := isText_false_of_isTok h1
      cases h3 : cs.any isText <;>
        simp [tagSuffix, h1, h2, h3, List.any_cons, List.count_cons]

theorem any_of_findIdx? {p : String → Bool} {cs : List String} {j : ℕ}
    (h : List.findIdx? p cs = some j) : cs.any p = true := by
  induction cs generalizing j with
  | nil => simp [List.findIdx?_nil] at h
  | cons c cs ih =>
    rw [List.findIdx?_cons] at h
    cases hp : p c
    · rw [if_neg (by simp [hp]), List.findIdx?_succ] at h
      rcases Option.map_eq_some'.mp h with ⟨j', hj', _⟩
      simp [List.any_cons, ih hj']
    · simp [List.any_cons, hp]

theorem findIdx?_of_any {p : String → Bool} {cs : List String}
    (h : cs.any p = true) : ∃ j, List.findIdx? p cs = some j := by
  induction cs with
  | nil => simp at h
  | cons c cs ih =>
    rw [List.findIdx?_cons]
    cases hp : p c
    · rw [List.any_cons, hp] at h
      simp at h
      rcases ih (by simpa using h) with ⟨j, hj⟩
      exact ⟨j + 1, by rw [if_neg (by simp), List.findIdx?_succ, hj]; rfl⟩
    · exact ⟨0, by simp⟩

theorem tagSuffix_of_indices {cs : List String} {i j : ℕ}
    (hi : List.findIdx? isTok cs = some i)
    (hj : List.findIdx? isText cs = some j) :
    i ≠ j ∧
    (i < j → tagSuffix cs = ["token-classification", "text-classification"]) ∧
    (j < i → tagSuffix cs = ["text-classification", "token-classification"]) := by
  induction cs generalizing i j with
  | nil => simp [List.findIdx?_nil] at hi
  | cons c cs ih =>
    rw [List.findIdx?_cons] at hi hj
    cases h1 : isTok c
    · rw [if_neg (by simp [h1]), List.findIdx?_succ] at hi
      rcases Option.map_eq_some'.mp hi with ⟨i', hi', rfl⟩
      cases h2 : isText c
      · rw [if_neg (by simp [h2]), List.findIdx?_succ] at hj
        rcases Option.map_eq_some'.mp hj with ⟨j', hj', rfl⟩
        rcases ih hi' hj' with ⟨hne, hlt, hgt⟩
        refine ⟨by omega, ?_, ?_⟩
        · intro h
          rw [tagSuffix, if_neg (by simp [h1]), if_neg (by simp [h2])]
          exact hlt (by omega)
        · intro h
          rw [tagSuffix, if_neg (by simp [h1]), if_neg (by simp [h2])]
          exact hgt (by omega)
      · rw [if_pos (by simp [h2])] at hj
        have hj0 : j = 0 := by simpa using hj.symm
        subst hj0
        refine ⟨by omega, by omega, ?_⟩
        intro _
        rw [tagSuffix, if_neg (by simp [h1]), if_pos (by simp [h2]),
          if_pos (any_of_findIdx? hi')]
    · rw [if_pos (by simp [h1])] at hi
      have hi0 : i = 0 := by simpa using hi.symm
      subst hi0
      have h2 := isText_false_of_isTok h1
      rw [if_neg (by simp [h2]), List.findIdx?_succ] at hj
      rcases Option.map_eq_some'.mp hj with ⟨j', hj', rfl⟩
      refine ⟨by omega, ?_, by omega⟩
      intro _
      rw [tagSuffix, if_pos (by simp [h1]), if_pos (any_of_findIdx? hj')]

/-! ## Helper lemmas: the model index -/

theorem find_eq_some_of_containsKey {d : Perf} {k : String}
    (h : d.containsKey k = true) : ∃ v, d.find k = some v := by
  rcases hv : d.find k with _ | v
  · rw [Perf.containsKey, hv] at h; simp at h
  · exact ⟨v, rfl⟩

theorem find_eq_none_of_not_containsKey {d : Perf} {k : String}
    (h : d.containsKey k = false) : d.find k = none := by
  rcases hv : d.find k with _ | v
  · rfl
  · rw [Perf.containsKey, hv] at h; simp at h

theorem getItem_eq_ok {d : Perf} {k : String} {v : Rat}
    (h : d.find k = some v) : d.getItem k = .ok v := by
  rw [Perf.getItem, h]

theorem getItem_eq_error {d : Perf} {k : String}
    (h : d.find k = none) : d.getItem k = .error k := by
  rw [Perf.getItem, h]

theorem findD_eq {d : Perf} {k : String} {v : Rat}
    (h : d.find k = some v) : d.findD k = v := by
  rw [Perf.findD, h]; rfl

theorem appendNER_ok {d : Perf} {rs rs' : List ResultEntry}
    (h : appendNER d rs = .ok rs') :
    rs' = rs ++ (if d.containsKey "ents_p" then [nerEntry d] else []) := by
  rw [appendNER] at h
  cases hc : d.containsKey "ents_p"
  · rw [hc] at h; simp at h; simp [hc, h]
  · rw [hc] at h; simp only [if_pos rfl] at h
    rcases find_eq_some_of_containsKey hc with ⟨p, hp⟩
    rw [getItem_eq_ok hp] at h
    rcases hr : d.find "ents_r" with _ | r
    · rw [Except.bind, getItem_eq_error hr] at h; simp [Except.bind] at h
    · rw [Except.bind, getItem_eq_ok hr] at h
      rcases hf : d.find "ents_f" with _ | f
      · rw [Except.bind, getItem_eq_error hf] at h; simp [Except.bind] at h
      · rw [Except.bind, getItem_eq_ok hf, Except.bind] at h
        simp at h
        simp [hc, ← h, nerEntry, findD_eq hp, findD_eq hr, findD_eq hf]

theorem appendPOS_ok {d : Perf} {rs rs' : List ResultEntry}
    (h : appendPOS d rs = .ok rs') :
    rs' = rs ++ (if d.containsKey "tag_acc" then [posEntry d] else []) := by
  rw [appendPOS] at h
  cases hc : d.containsKey "tag_acc"
  · rw [hc] at h; simp at h; simp [hc, h]
  · rw [hc] at h; simp only [if_pos rfl] at h
    rcases find_eq_some_of_containsKey hc with ⟨a, ha⟩
    rw [getItem_eq_ok ha, Except.bind] at h
    simp at h
    simp [hc, ← h, posEntry, findD_eq ha]

theorem appendSENTER_ok {d : Perf} {rs rs' : List ResultEntry}
    (h : appendSENTER d rs = .ok rs') :
    rs' = rs ++ (if d.containsKey "sents_p" then [senterEntry d] else []) := by
  rw [appendSENTER] at h
  cases hc : d.containsKey "sents_p"
  · rw [hc] at h; simp at h; simp [hc, h]
  · rw [hc] at h; simp only [if_pos rfl] at h
    rcases find_eq_some_of_containsKey hc with ⟨p, hp⟩
    rw [getItem_eq_ok hp] at h
    rcases hr : d.find "sents_r" with _ | r
    · rw [Except.bind, getItem_eq_error hr] at h; simp [Except.bind] at h
    · rw [Except.bind, getItem_eq_ok hr] at h
      rcases hf : d.find "sents_f" with _ | f
      · rw [Except.bind, getItem_eq_error hf] at h; simp [Except.bind] at h
      · rw [Except.bind, getItem_eq_ok hf, Except.bind] at h
        simp at h
        simp [hc, ← h, senterEntry, findD_eq hp, findD_eq hr, findD_eq hf]

theorem appendUAS_ok {d : Perf} {rs rs' : List ResultEntry}
    (h : appendUAS d rs = .ok rs') :
    rs' = rs ++ (if d.containsKey "dep_uas" then [uasEntry d] else []) := by
  rw [appendUAS] at h
  cases hc : d.containsKey "dep_uas"
  · rw [hc] at h; simp at h; simp [hc, h]
  · rw [hc] at h; simp only [if_pos rfl] at h
    rcases find_eq_some_of_containsKey hc with ⟨a, ha⟩
    rw [getItem_eq_ok ha, Except.bind] at h
    simp at h
    simp [hc, ← h, uasEntry, findD_eq ha]

theorem appendLAS_ok {d : Perf} {rs rs' : List ResultEntry}
    (h : appendLAS d rs = .ok rs') :
    rs' = rs ++ (if d.containsKey "dep_las" then [lasEntry d] else []) ∧
    (d.containsKey "dep_las" = true → ∃ u, d.find "dep_uas" = some u) := by
  rw [appendLAS] at h
  cases hc : d.containsKey "dep_las"
  · rw [hc] at h; simp at h; simp [hc, h]
  · rw [hc] at h; simp only [if_pos rfl] at h
    rcases ha : d.find "dep_uas" with _ | a
    · rw [getItem_eq_error ha, Except.bind] at h; simp at h
    · rw [getItem_eq_ok ha, Except.bind] at h
      simp at h
      exact ⟨by simp [hc, ← h, lasEntry, findD_eq ha], fun _ => ⟨a, rfl⟩⟩

/-- The shape the `results` list must have whenever its construction
(lines 85-145) succeeds: one entry per present group, in source order. -/
theorem buildResults_ok {d : Perf} {rs : List ResultEntry}
    (h : buildResults d = .ok rs) :
    rs = (if d.containsKey "ents_p" then [nerEntry d] else []) ++
         (if d.containsKey "tag_acc" then [posEntry d] else []) ++
         (if d.containsKey "sents_p" then [senterEntry d] else []) ++
         (if d.containsKey "dep_uas" then [uasEntry d] else []) ++
         (if d.containsKey "dep_las" then [lasEntry d] else []) ∧
    (d.containsKey "dep_las" = true → ∃ u, d.find "dep_uas" = some u) := by
  rw [buildResults] at h
  rcases h1 : appendNER d [] with e1 | rs1 <;> rw [h1] at h
  · simp [Except.bind] at h
  rcases h2 : appendPOS d rs1 with e2 | rs2 <;>
    rw [Except.bind, h2] at h
  · simp [Except.bind] at h
  rcases h3 : appendSENTER d rs2 with e3 | rs3 <;>
    rw [Except.bind, h3] at h
  · simp [Except.bind] at h
  rcases h4 : appendUAS d rs3 with e4 | rs4 <;>
    rw [Except.bind, h4] at h
  · simp [Except.bind] at h
  rw [Except.bind] at h
  rcases appendLAS_ok h with ⟨h5, hua⟩
  refine ⟨?_, hua⟩
  rw [h5, appendUAS_ok h4, appendSENTER_ok h3, appendPOS_ok h2,
    appendNER_ok h1]
  simp

/-- `_create_model_index` succeeds exactly when `buildResults` does, with
the same `results`. -/
theorem _create_model_index_ok {n : String} {d : Perf} {mi : ModelIndex}
    (h : _create_model_index n d = .ok mi) :
    mi.name = n ∧ buildResults d = .ok mi.results := by
  rw [_create_model_index] at h
  rcases hb : buildResults d with e | rs <;> rw [hb] at h
  · simp at h
  · simp at h
    simp [← h]

/-! ## Helper lemmas: the card dict -/

theorem string_eq_empty_of_length {s : String} (h : s.length = 0) :
    s = "" := by
  rcases s with ⟨data⟩
  rcases data with _ | ⟨c, cs⟩
  · rfl
  · simp [String.length] at h

theorem replaceSpaces_length (s : String) :
    (replaceSpaces s).length = s.length := by
  rcases s with ⟨data⟩
  simp [replaceSpaces, String.length]

theorem replaceSpaces_empty : replaceSpaces "" = "" := rfl

theorem replaceSpaces_ne_empty {s : String} (h : s ≠ "") :
    replaceSpaces s ≠ "" := by
  intro he
  apply h
  apply string_eq_empty_of_length
  have hl := congrArg String.length he
  rw [replaceSpaces_length] at hl
  exact hl

/-- The card a successful `cardMetadata` run returns, fully explicit:
`tags`, then `language`, then `license` when the normalized license is
non-empty, then `model-index`. -/
theorem cardMetadata_ok {n : String} {m : Manifest} {card : Card}
    (h : cardMetadata n m = .ok card) :
    ∃ l cs p mi,
      m.lang = some l ∧ m.components = some cs ∧ m.performance = some p ∧
      _create_model_index n p = .ok mi ∧
      card =
        ("tags", CardValue.strList (computeTags cs)) ::
        ("language",
          CardValue.strList [if l = "xx" then "multilingual" else l]) ::
        ((if replaceSpaces (m.license.getD "") = "" then []
          else [("license", CardValue.str (replaceSpaces (m.license.getD "")))]) ++
         [("model-index", CardValue.index mi)]) := by
  rw [cardMetadata] at h
  rcases hl : m.lang with _ | l <;> rw [hl] at h
  · simp at h
  rcases hc : m.components with _ | cs <;> rw [hc] at h
  · simp at h
  rcases hp : m.performance with _ | p <;> rw [hp] at h
  · simp at h
  simp only [] at h
  rcases hmi : _create_model_index n p with e | mi <;> rw [hmi] at h
  · simp at h
  simp only [] at h
  refine ⟨l, cs, p, mi, rfl, rfl, rfl, hmi, ?_⟩
  have htags : ¬ (computeTags cs).length = 0 := by
    rw [computeTags_eq]; simp
  by_cases hlic : replaceSpaces (m.license.getD "") = ""
  · rw [if_pos hlic]
    simp only [_insert_values_as_list, _insert_value, if_neg htags,
      if_pos hlic, dictInsert] at h
    simp at h
    simp [← h]
  · rw [if_neg hlic]
    simp only [_insert_values_as_list, _insert_value, if_neg htags,
      if_neg hlic, dictInsert] at h
    simp at h
    simp [← h]

/-! ## Claim theorems -/

/-- C1: whenever the performance mapping contains `dep_las` and
`_create_model_index` succeeds, the LABELED_DEPENDENCIES entry of the
results is unique and carries exactly one metric, named `Accuracy` of
type `accuracy`, whose value is the mapping's `dep_uas` value (the
unlabeled-dependency accuracy), not its `dep_las` value. -/
theorem C1_las_entry_reads_uas (n : String) (d : Perf) (mi : ModelIndex)
    (hlas : d.containsKey "dep_las" = true)
    (h : _create_model_index n d = .ok mi) :
    ∃ u, d.find "dep_uas" = some u ∧
      mi.results.filter
          (fun e => e.tasks.name == "LABELED_DEPENDENCIES") =
        [⟨⟨"LABELED_DEPENDENCIES", "token-classification",
           [_create_metric "Accuracy" "accuracy" u]⟩⟩] := by
  rcases _create_model_index_ok h with ⟨-, hb⟩
  rcases buildResults_ok hb with ⟨hrs, hua⟩
  rcases hua hlas with ⟨u, hu⟩
  refine ⟨u, hu, ?_⟩
  rw [hrs, hlas]
  cases hc1 : d.containsKey "ents_p" <;>
    cases hc2 : d.containsKey "tag_acc" <;>
      cases hc3 : d.containsKey "sents_p" <;>
        cases hc4 : d.containsKey "dep_uas" <;>
          simp [nerEntry, posEntry, senterEntry, uasEntry, lasEntry,
            _create_metric, findD_eq hu]

theorem C1_witness :
    ∃ u, Perf.find [("dep_uas", (1 : Rat)), ("dep_las", (2 : Rat))]
        "dep_uas" = some u ∧
      (ModelIndex.results
          ⟨"m", [⟨⟨"UNLABELED_DEPENDENCIES", "token-classification",
                   [⟨"Accuracy", "accuracy", (1 : Rat)⟩]⟩⟩,
                 ⟨⟨"LABELED_DEPENDENCIES", "token-classification",
                   [⟨"Accuracy", "accuracy", (1 : Rat)⟩]⟩⟩]⟩).filter
          (fun e => e.tasks.name == "LABELED_DEPENDENCIES") =
        [⟨⟨"LABELED_DEPENDENCIES", "token-classification",
           [_create_metric "Accuracy" "accuracy" u]⟩⟩] :=
  C1_las_entry_reads_uas "m" [("dep_uas", 1), ("dep_las", 2)] _ rfl rfl

/-- C7: whenever `_create_model_index` succeeds the results sequence has
exactly one entry per present metric group, in the fixed source order
NER, POS, SENTER, UNLABELED_DEPENDENCIES, LABELED_DEPENDENCIES; when no
group is present it succeeds with an empty results sequence; and the
outcome depends only on the key-value lookup function of the mapping,
not on its key order. -/
theorem C7_results_fixed_order :
    (∀ (n : String) (d : Perf) (mi : ModelIndex),
      _create_model_index n d = .ok mi →
      mi.results =
        (if d.containsKey "ents_p" then [nerEntry d] else []) ++
        (if d.containsKey "tag_acc" then [posEntry d] else []) ++
        (if d.containsKey "sents_p" then [senterEntry d] else []) ++
        (if d.containsKey "dep_uas" then [uasEntry d] else []) ++
        (if d.containsKey "dep_las" then [lasEntry d] else [])) ∧
    (∀ (n : String) (d : Perf),
      d.containsKey "ents_p" = false → d.containsKey "tag_acc" = false →
      d.containsKey "sents_p" = false → d.containsKey "dep_uas" = false →
      d.containsKey "dep_las" = false →
      _create_model_index n d = .ok ⟨n, []⟩) ∧
    (∀ (n : String) (d1 d2 : Perf),
      (∀ k, d1.find k = d2.find k) →
      _create_model_index n d1 = _create_model_index n d2) := by
  refine ⟨?_, ?_, ?_⟩
  · intro n d mi h
    rcases _create_model_index_ok h with ⟨-, hb⟩
    exact (buildResults_ok hb).1
  · intro n d h1 h2 h3 h4 h5
    rw [_create_model_index, buildResults,
      appendNER, h1, if_neg (by simp)]
    rw [Except.bind, appendPOS, h2, if_neg (by simp)]
    rw [Except.bind, appendSENTER, h3, if_neg (by simp)]
    rw [Except.bind, appendUAS, h4, if_neg (by simp)]
    rw [Except.bind, appendLAS, h5, if_neg (by simp)]
  · intro n d1 d2 h
    have e1 : appendNER d1 = appendNER d2 := by
      funext rs; simp only [appendNER, Perf.containsKey, Perf.getItem, h]
    have e2 : appendPOS d1 = appendPOS d2 := by
      funext rs; simp only [appendPOS, Perf.containsKey, Perf.getItem, h]
    have e3 : appendSENTER d1 = appendSENTER d2 := by
      funext rs; simp only [appendSENTER, Perf.containsKey, Perf.getItem, h]
    have e4 : appendUAS d1 = appendUAS d2 := by
      funext rs; simp only [appendUAS, Perf.containsKey, Perf.getItem, h]
    have e5 : appendLAS d1 = appendLAS d2 := by
      funext rs; simp only [appendLAS, Perf.containsKey, Perf.getItem, h]
    rw [_create_model_index, _create_model_index, buildResults, buildResults,
      e1, e2, e3, e4, e5]

theorem C7_witness :
    (ModelIndex.results
        ⟨"m", [⟨⟨"POS", "token-classification",
                 [⟨"Accuracy", "accuracy", (1 : Rat)⟩]⟩⟩]⟩ =
      (if Perf.containsKey [("tag_acc", (1 : Rat))] "ents_p" then
        [nerEntry [("tag_acc", (1 : Rat))]] else []) ++
      (if Perf.containsKey [("tag_acc", (1 : Rat))] "tag_acc" then
        [posEntry [("tag_acc", (1 : Rat))]] else []) ++
      (if Perf.containsKey [("tag_acc", (1 : Rat))] "sents_p" then
        [senterEntry [("tag_acc", (1 : Rat))]] else []) ++
      (if Perf.containsKey [("tag_acc", (1 : Rat))] "dep_uas" then
        [uasEntry [("tag_acc", (1 : Rat))]] else []) ++
      (if Perf.containsKey [("tag_acc", (1 : Rat))] "dep_las" then
        [lasEntry [("tag_acc", (1 : Rat))]] else [])) ∧
    _create_model_index "m" [("speed", (100 : Rat))] = .ok ⟨"m", []⟩ ∧
    _create_model_index "m" [("a", (1 : Rat)), ("b", (2 : Rat))] =
      _create_model_index "m" [("b", (2 : Rat)), ("a", (1 : Rat))] := by
  refine ⟨?_, ?_, ?_⟩
  · exact C7_results_fixed_order.1 "m" [("tag_acc", 1)] _ rfl
  · exact C7_results_fixed_order.2.1 "m" [("speed", 100)] rfl rfl rfl rfl rfl
  · refine C7_results_fixed_order.2.2 "m" _ _ ?_
    intro k
    rw [Perf.find, Perf.find, Perf.find, Perf.find, Perf.find, Perf.find]
    by_cases ha : "a" = k <;> by_cases hb : "b" = k
    · rw [← ha] at hb; simp at hb
    · simp [ha, hb]
    · simp [ha, hb]
    · simp [ha, hb]

/-- C10: a performance mapping that contains `dep_las` but not `dep_uas`
makes `_create_model_index` fail with a key-lookup error, because the
`dep_las` branch reads `data["dep_uas"]` (line 141). -/
theorem C10_las_without_uas_errors (n : String) (d : Perf)
    (hlas : d.containsKey "dep_las" = true)
    (huas : d.containsKey "dep_uas" = false) :
    ∃ e, _create_model_index n d = .error e := by
  rw [_create_model_index]
  rcases hb : buildResults d with e | rs
  · exact ⟨e, rfl⟩
  · exfalso
    rcases (buildResults_ok hb).2 hlas with ⟨u, hu⟩
    rw [find_eq_none_of_not_containsKey huas] at hu
    exact Option.noConfusion hu

theorem C10_witness :
    ∃ e, _create_model_index "m" [("dep_las", (1 : Rat))] = .error e :=
  C10_las_without_uas_errors "m" [("dep_las", 1)] rfl rfl

/-- C2 (counterexample): for the component list `["textcat", "ner"]`,
which contains a text-classifier component and a token-classification
component, the derived tags are
`["spacy", "text-classification", "token-classification"]`:
`token-classification` does NOT appear before `text-classification`,
refuting the claimed fixed relative order. -/
theorem C2_counterexample :
    computeTags ["textcat", "ner"] =
      ["spacy", "text-classification", "token-classification"] ∧
    ¬ (computeTags ["textcat", "ner"]).indexOf "token-classification" <
        (computeTags ["textcat", "ner"]).indexOf "text-classification" := by
  refine ⟨by decide, by decide⟩

/-- C2 (amended): for every component list containing at least one
component in `{ner, tagger, morphologizer}` and at least one in
`{textcat, textcat_multilabel}`, the tags contain both
`token-classification` and `text-classification`, each exactly once, and
their relative order is the order of the first qualifying components:
`token-classification` first when the first token-classification
component precedes the first text-classification component, and
`text-classification` first otherwise. -/
theorem C2_both_tags_once (cs : List String)
    (htok : cs.any isTok = true) (htext : cs.any isText = true) :
    (computeTags cs).count "token-classification" = 1 ∧
    (computeTags cs).count "text-classification" = 1 ∧
    ∀ i j, List.findIdx? isTok cs = some i →
      List.findIdx? isText cs = some j →
      (i < j → computeTags cs =
        ["spacy", "token-classification", "text-classification"]) ∧
      (j < i → computeTags cs =
        ["spacy", "text-classification", "token-classification"]) := by
  refine ⟨?_, ?_, ?_⟩
  · rw [computeTags_eq, List.count_cons, tagSuffix_count_tok, htok]
    simp
  · rw [computeTags_eq, List.count_cons, tagSuffix_count_text, htext]
    simp
  · intro i j hi hj
    rcases tagSuffix_of_indices hi hj with ⟨-, hlt, hgt⟩
    exact ⟨fun h => by rw [computeTags_eq, hlt h],
           fun h => by rw [computeTags_eq, hgt h]⟩

theorem C2_witness :
    (computeTags ["ner", "textcat"]).count "token-classification" = 1 ∧
    (computeTags ["ner", "textcat"]).count "text-classification" = 1 ∧
    ((0 : ℕ) < 1 → computeTags ["ner", "textcat"] =
      ["spacy", "token-classification", "text-classification"]) ∧
    ((1 : ℕ) < 0 → computeTags ["ner", "textcat"] =
      ["spacy", "text-classification", "token-classification"]) := by
  have h := C2_both_tags_once ["ner", "textcat"] (by decide) (by decide)
  exact ⟨h.1, h.2.1, h.2.2 0 1 (by decide) (by decide)⟩

/-- C4: for every component list, the derived tags start with the fixed
base tag `spacy`; `token-classification` appears exactly when some
component is in `{ner, tagger, morphologizer}` and then exactly once,
`text-classification` appears exactly when some component is in
`{textcat, textcat_multilabel}` and then exactly once, and when both
occur their order in the tags matches the order of the first qualifying
components in the scanned list. -/
theorem C4_tag_scan_invariant (cs : List String) :
    (computeTags cs).head? = some "spacy" ∧
    (computeTags cs).count "token-classification" =
      (if cs.any isTok then 1 else 0) ∧
    (computeTags cs).count "text-classification" =
      (if cs.any isText then 1 else 0) ∧
    ∀ i j, List.findIdx? isTok cs = some i →
      List.findIdx? isText cs = some j →
      (i < j ↔
        (computeTags cs).indexOf "token-classification" <
          (computeTags cs).indexOf "text-classification") := by
  refine ⟨by rw [computeTags_eq]; rfl, ?_, ?_, ?_⟩
  · rw [computeTags_eq, List.count_cons, tagSuffix_count_tok]
    simp
  · rw [computeTags_eq, List.count_cons, tagSuffix_count_text]
    simp
  · intro i j hi hj
    rcases tagSuffix_of_indices hi hj with ⟨hne, hlt, hgt⟩
    constructor
    · intro h
      rw [computeTags_eq, hlt h]
      decide
    · intro h
      by_contra hij
      have hji : j < i := by omega
      rw [computeTags_eq, hgt hji] at h
      revert h
      decide

theorem C4_witness :
    (computeTags ["textcat", "ner"]).head? = some "spacy" ∧
    (computeTags ["textcat", "ner"]).count "token-classification" =
      (if (["textcat", "ner"] : List String).any isTok then 1 else 0) ∧
    (computeTags ["textcat", "ner"]).count "text-classification" =
      (if (["textcat", "ner"] : List String).any isText then 1 else 0) ∧
    ((1 : ℕ) < 0 ↔
      (computeTags ["textcat", "ner"]).indexOf "token-classification" <
        (computeTags ["textcat", "ner"]).indexOf "text-classification") := by
  have h := C4_tag_scan_invariant ["textcat", "ner"]
  exact ⟨h.1, h.2.1, h.2.2.1, h.2.2.2 1 0 (by decide) (by decide)⟩

/-- C3 (counterexample): a manifest with an empty performance mapping
(no metric group present) still yields a card that carries the
`model-index` field, whose results sequence is empty — the field is not
omitted, refuting the claim for this top-level field. -/
theorem C3_counterexample :
    cardMetadata "m" ⟨some "en", none, some [], some []⟩ =
      .ok [("tags", CardValue.strList ["spacy"]),
           ("language", CardValue.strList ["en"]),
           ("model-index", CardValue.index ⟨"m", []⟩)] ∧
    lookupCard [("tags", CardValue.strList ["spacy"]),
           ("language", CardValue.strList ["en"]),
           ("model-index", CardValue.index ⟨"m", []⟩)] "model-index" =
      some (CardValue.index ⟨"m", []⟩) :=
  ⟨rfl, rfl⟩

/-- C3 (amended): every card field routed through `_insert_value` or
`_insert_values_as_list` — `tags`, `language`, `license` — is omitted
entirely when its value is absent (`None`), the empty string, or an
empty list; the `model-index` field, however, is assigned directly and
is present in every successfully built card, even when its results
sequence is empty. -/
theorem C3_empty_fields_omitted :
    (∀ (meta : Card) (name : String), _insert_value meta name none = meta) ∧
    (∀ (meta : Card) (name : String),
      _insert_value meta name (some "") = meta) ∧
    (∀ (meta : Card) (name : String),
      _insert_values_as_list meta name none = meta) ∧
    (∀ (meta : Card) (name : String),
      _insert_values_as_list meta name (some (.l [])) = meta) ∧
    (∀ (n : String) (m : Manifest) (card : Card),
      cardMetadata n m = .ok card →
      ∃ mi, lookupCard card "model-index" = some (CardValue.index mi)) := by
  refine ⟨fun _ _ => rfl, fun _ _ => rfl, fun _ _ => rfl, fun _ _ => rfl, ?_⟩
  intro n m card h
  rcases cardMetadata_ok h with ⟨l, cs, p, mi, -, -, -, -, hcard⟩
  refine ⟨mi, ?_⟩
  rw [hcard, lookupCard, if_neg (by decide), lookupCard, if_neg (by decide)]
  by_cases hlic : replaceSpaces (m.license.getD "") = ""
  · rw [if_pos hlic, List.nil_append, lookupCard, if_pos rfl]
  · rw [if_neg hlic, List.singleton_append, lookupCard, if_neg (by decide),
      lookupCard, if_pos rfl]

theorem C3_witness :
    ∃ mi, lookupCard [("tags", CardValue.strList ["spacy"]),
           ("language", CardValue.strList ["en"]),
           ("model-index", CardValue.index ⟨"m", []⟩)] "model-index" =
      some (CardValue.index mi) :=
  C3_empty_fields_omitted.2.2.2.2 "m" ⟨some "en", none, some [], some []⟩ _ rfl

/-- C5: in every successfully built card, the `language` field is the
singleton list `["multilingual"]` when the manifest's `lang` is the
sentinel `"xx"`, and the singleton list of the unchanged `lang` value
otherwise. -/
theorem C5_language_field (n : String) (m : Manifest) (card : Card)
    (l : String) (h : cardMetadata n m = .ok card) (hl : m.lang = some l) :
    lookupCard card "language" =
      some (CardValue.strList [if l = "xx" then "multilingual" else l]) := by
  rcases cardMetadata_ok h with ⟨l', cs, p, mi, hl', -, -, -, hcard⟩
  rw [hl] at hl'
  injection hl' with hll
  subst hll
  rw [hcard, lookupCard, if_neg (by decide), lookupCard, if_pos rfl]

theorem C5_witness :
    lookupCard [("tags", CardValue.strList ["spacy"]),
        ("language", CardValue.strList ["multilingual"]),
        ("model-index", CardValue.index ⟨"m", []⟩)] "language" =
      some (CardValue.strList
        [if "xx" = "xx" then "multilingual" else "xx"]) :=
  C5_language_field "m" ⟨some "xx", none, some [], some []⟩ _ "xx" rfl rfl

/-- C6: in every successfully built card, the `license` field is absent
exactly when the manifest's license is absent or empty, and otherwise
equals the manifest value with every space replaced by a hyphen. -/
theorem C6_license_field (n : String) (m : Manifest) (card : Card)
    (h : cardMetadata n m = .ok card) :
    ((m.license = none ∨ m.license = some "") →
      lookupCard card "license" = none) ∧
    (∀ l, m.license = some l → l ≠ "" →
      lookupCard card "license" =
        some (CardValue.str (replaceSpaces l))) := by
  rcases cardMetadata_ok h with ⟨l', cs, p, mi, -, -, -, -, hcard⟩
  constructor
  · intro hlic
    have he : m.license.getD "" = "" := by
      rcases hlic with h' | h' <;> simp [h']
    rw [hcard, he, replaceSpaces_empty, if_pos rfl]
    rw [lookupCard, if_neg (by decide), lookupCard, if_neg (by decide),
      List.nil_append, lookupCard, if_neg (by decide), lookupCard]
  · intro l hl hne
    have he : m.license.getD "" = l := by simp [hl]
    rw [hcard, he, if_neg (replaceSpaces_ne_empty hne)]
    rw [lookupCard, if_neg (by decide), lookupCard, if_neg (by decide),
      List.singleton_append, lookupCard, if_pos rfl]

theorem C6_witness :
    lookupCard [("tags", CardValue.strList ["spacy"]),
        ("language", CardValue.strList ["en"]),
        ("model-index", CardValue.index ⟨"m", []⟩)] "license" = none ∧
    lookupCard [("tags", CardValue.strList ["spacy"]),
        ("language", CardValue.strList ["en"]),
        ("license", CardValue.str "MIT-License"),
        ("model-index", CardValue.index ⟨"m", []⟩)] "license" =
      some (CardValue.str (replaceSpaces "MIT License")) :=
  ⟨(C6_license_field "m" ⟨some "en", none, some [], some []⟩ _ rfl).1
      (Or.inl rfl),
   (C6_license_field "m" ⟨some "en", some "MIT License", some [], some []⟩
      _ rfl).2 "MIT License" rfl (by decide)⟩

/-- C8: card creation fails with a key-lookup error whenever the
manifest lacks `lang`, `components`, or `performance`; an absent
`license` alone never causes failure — with the three required keys
present, the card is built whenever the model index is. -/
theorem C8_missing_required_keys :
    (∀ (n : String) (m : Manifest),
      m.lang = none ∨ m.components = none ∨ m.performance = none →
      ∃ e, cardMetadata n m = .error e) ∧
    (∀ (n l : String) (cs : List String) (p : Perf) (mi : ModelIndex),
      _create_model_index n p = .ok mi →
      ∃ card,
        cardMetadata n ⟨some l, none, some cs, some p⟩ = .ok card) := by
  constructor
  · intro n m h
    rcases h with h | h | h
    · exact ⟨"lang", by simp [cardMetadata, h]⟩
    · rcases hl : m.lang with _ | l
      · exact ⟨"lang", by simp [cardMetadata, hl]⟩
      · exact ⟨"components", by simp [cardMetadata, hl, h]⟩
    · rcases hl : m.lang with _ | l
      · exact ⟨"lang", by simp [cardMetadata, hl]⟩
      · rcases hc : m.components with _ | cs
        · exact ⟨"components", by simp [cardMetadata, hl, hc]⟩
        · exact ⟨"performance", by simp [cardMetadata, hl, hc, h]⟩
  · intro n l cs p mi hmi
    exact ⟨_, by simp [cardMetadata, hmi]; rfl⟩

theorem C8_witness :
    (∃ e, cardMetadata "m" ⟨none, none, none, none⟩ = .error e) ∧
    (∃ card,
      cardMetadata "m" ⟨some "en", none, some [], some []⟩ = .ok card) :=
  ⟨C8_missing_required_keys.1 "m" ⟨none, none, none, none⟩ (Or.inl rfl),
   C8_missing_required_keys.2 "m" "en" [] [] ⟨"m", []⟩ rfl⟩

/-- C9: the rewritten description document is always the front-matter
block — the serialized metadata between `---` marker lines — followed by
the prior content unchanged (the empty string when the document did not
exist); running the rewrite again prepends a second block before the
first instead of replacing it, so the rewrite is never idempotent. -/
theorem C9_front_matter_prepended (meta prior : String) :
    rewriteDescription meta none = "---\n" ++ meta ++ "---\n" ∧
    rewriteDescription meta (some prior) =
      "---\n" ++ meta ++ "---\n" ++ prior ∧
    rewriteDescription meta (some (rewriteDescription meta (some prior))) =
      "---\n" ++ meta ++ "---\n" ++
        ("---\n" ++ meta ++ "---\n" ++ prior) ∧
    rewriteDescription meta (some (rewriteDescription meta (some prior))) ≠
      rewriteDescription meta (some prior) := by
  refine ⟨?_, ?_, ?_, ?_⟩
  · simp [rewriteDescription]
  · simp [rewriteDescription, String.append_assoc]
  · simp [rewriteDescription, String.append_assoc]
  · intro hcontra
    have hl := congrArg String.length hcontra
    simp [rewriteDescription, String.length_append,
      show ("---\n" : String).length = 4 from rfl] at hl

theorem C9_witness :
    rewriteDescription "a: b\n" none = "---\n" ++ "a: b\n" ++ "---\n" ∧
    rewriteDescription "a: b\n" (some "hello") =
      "---\n" ++ "a: b\n" ++ "---\n" ++ "hello" ∧
    rewriteDescription "a: b\n"
        (some (rewriteDescription "a: b\n" (some "hello"))) =
      "---\n" ++ "a: b\n" ++ "---\n" ++
        ("---\n" ++ "a: b\n" ++ "---\n" ++ "hello") ∧
    rewriteDescription "a: b\n"
        (some (rewriteDescription "a: b\n" (some "hello"))) ≠
      rewriteDescription "a: b\n" (some "hello") :=
  C9_front_matter_prepended "a: b\n" "hello"

end SpacyHFHub
